import Mathlib

/-!
Verification development for the xlog structured-logging library.

The Go sources are shallowly embedded: the byte accumulator (`Builder`) is
append-only in all code paths modelled here, so each append method is
translated as a pure function returning the list of bytes it appends
(bytes are `Nat` values below 256, Go strings are their UTF-8 byte lists).
Machine integers are modelled as `Int`/`Nat` with explicit reduction
modulo 2^64 where the Go code converts through `uint64`.

The repository's `level.go` is not present under `src/` (only callers and
tests of the `Level` type are); the handful of level definitions used by
the embedded code are modelled from the spec and are marked with a doc
comment starting with `Modelled from the spec:`.
-/

namespace Xlog

/-- UTF-8 encoding of one scalar value, used to turn Lean string literals
into the byte lists the embedding works on. -/
def utf8EncodeCharBytes (c : Char) : List Nat :=
  let n := c.toNat
  if n < 128 then [n]
  else if n < 2048 then [192 + n / 64, 128 + n % 64]
  else if n < 65536 then [224 + n / 4096, 128 + (n / 64) % 64, 128 + n % 64]
  else [240 + n / 262144, 128 + (n / 4096) % 64, 128 + (n / 64) % 64, 128 + n % 64]

/-- Byte list (UTF-8) of a Lean string literal; Go strings are byte sequences. -/
def strBytes (s : String) : List Nat :=
  s.data.foldr (fun c acc => utf8EncodeCharBytes c ++ acc) []

/-- Conversion of a Go integer to `uint64`: two's-complement reduction modulo 2^64. -/
def goUint64 (x : Int) : Nat :=
  (x % (2 ^ 64 : Int)).toNat

/-- Loop of `fmtInt` (builder.go), written with an explicit fuel so that the
kernel can evaluate it (the Go loop `for i ≥ 10 || wid > 1` terminates because
each pass divides `i` by ten and decrements `wid`). The fuel bound chosen by
`fmtIntList` is sufficient for every `uint64` argument, so the zero-fuel
branch is unreachable on the source's domain. -/
def fmtIntAux : Nat → Nat → Int → List Nat
  | 0, i, _ => [48 + i]
  | fuel + 1, i, wid =>
    if i ≥ 10 ∨ wid > 1 then
      fmtIntAux fuel (i / 10) (wid - 1) ++ [48 + i % 10]
    else
      [48 + i]

/-- Embedding of `fmtInt` (builder.go): cheap integer to fixed-width decimal
ASCII, written into the tail of a buffer; here returned as the byte list in
buffer order (most significant digit first). A negative width avoids
zero-padding. -/
def fmtIntList (i : Nat) (wid : Int) : List Nat :=
  fmtIntAux (64 + wid.toNat) i wid

/-- Loop body of `fmtFrac` (builder.go): peels `prec` decimal digits off `v`
least-significant first, printing a digit once a nonzero one has been seen.
Returns the printed digits (buffer order), the print flag and the remaining
value. -/
def fmtFracCore (v : Nat) (prec : Nat) (acc : List Nat) (pr : Bool) : List Nat × Bool × Nat :=
  match prec with
  | 0 => (acc, pr, v)
  | p + 1 =>
    let digit := v % 10
    let pr2 := pr || decide (digit ≠ 0)
    let acc2 := if pr2 then (48 + digit) :: acc else acc
    fmtFracCore (v / 10) p acc2 pr2

/-- Embedding of `fmtFrac` (builder.go): formats the fraction of v/10^prec
(e.g. ".12345") omitting trailing zeros, and omits the decimal point when the
fraction is zero. Returns the appended bytes and v/10^prec. -/
def fmtFracList (v : Nat) (prec : Nat) : List Nat × Nat :=
  let r := fmtFracCore v prec [] false
  (if r.2.1 then 46 :: r.1 else r.1, r.2.2)

/-- Negation in `uint64` arithmetic, as in `u = -u` of `AppendDuration`. -/
def negUint64 (u : Nat) : Nat :=
  goUint64 (-(u : Int))

/-- Embedding of `Builder.AppendDuration` (builder.go). The function writes
into a fixed 32-byte array from the end and finally appends `buf[w:]`; since
every write lands at a fresh smaller index, the buffer contents are the
concatenation modelled here. In the `u == 0` case the source writes the string
"0s" directly to the builder but does not return: it falls through to
`fmtFrac`/`fmtInt` with `prec = 0`, so one more digit `'0'` is produced and
the buffer slot reserved for the unit letter stays at its zero initial value,
yielding the extra bytes `'0', 0x00, 's'`. -/
def appendDurationBytes (d : Int) : List Nat :=
  let neg := decide (d < 0)
  let u0 := goUint64 d
  let u := if neg then negUint64 u0 else u0
  if u < 1000000000 then
    let pre : List Nat := if u = 0 then [48, 115] else []
    let prec : Nat := if u = 0 then 0 else if u < 1000 then 0 else if u < 1000000 then 3 else 6
    let unit : List Nat :=
      if u = 0 then [0, 115]
      else if u < 1000 then [110, 115]
      else if u < 1000000 then [194, 181, 115]
      else [109, 115]
    let fr := fmtFracList u prec
    pre ++ (if neg then [45] else []) ++ fmtIntList fr.2 (-1) ++ fr.1 ++ unit
  else
    let fr := fmtFracList u 9
    let secB := fmtIntList (fr.2 % 60) (-1)
    let u2 := fr.2 / 60
    let hm : List Nat :=
      if u2 > 0 then
        (if u2 / 60 > 0 then fmtIntList (u2 / 60) (-1) ++ [104] else [])
          ++ fmtIntList (u2 % 60) (-1) ++ [109]
      else []
    (if neg then [45] else []) ++ hm ++ secB ++ fr.1 ++ [115]

/-- Modelled from the spec: the reference "humane" duration formatter
(`time.Duration.String` of the Go standard library), which claim C2 names as
the reference. It is the same algorithm as `appendDurationBytes` except that
the zero duration returns exactly "0s". -/
def refDurationBytes (d : Int) : List Nat :=
  let neg := decide (d < 0)
  let u0 := goUint64 d
  let u := if neg then negUint64 u0 else u0
  if u = 0 then [48, 115]
  else if u < 1000000000 then
    let prec : Nat := if u < 1000 then 0 else if u < 1000000 then 3 else 6
    let unit : List Nat :=
      if u < 1000 then [110, 115]
      else if u < 1000000 then [194, 181, 115]
      else [109, 115]
    let fr := fmtFracList u prec
    (if neg then [45] else []) ++ fmtIntList fr.2 (-1) ++ fr.1 ++ unit
  else
    let fr := fmtFracList u 9
    let secB := fmtIntList (fr.2 % 60) (-1)
    let u2 := fr.2 / 60
    let hm : List Nat :=
      if u2 > 0 then
        (if u2 / 60 > 0 then fmtIntList (u2 / 60) (-1) ++ [104] else [])
          ++ fmtIntList (u2 % 60) (-1) ++ [109]
      else []
    (if neg then [45] else []) ++ hm ++ secB ++ fr.1 ++ [115]

/-- Sanity: the embedding reproduces the repository's own duration test
vector 91989993334522ns = "25h33m9.993334522s", on which the buggy and the
reference formatter agree. -/
theorem appendDuration_matches_ref_sample :
    appendDurationBytes 91989993334522 = strBytes "25h33m9.993334522s"
      ∧ appendDurationBytes 91989993334522 = refDurationBytes 91989993334522 := by
  constructor <;> decide

/-- Sanity: sub-second and negative durations follow the reference formatter. -/
theorem appendDuration_matches_ref_small :
    appendDurationBytes 1500 = strBytes "1.5µs"
      ∧ appendDurationBytes (-1500000) = strBytes "-1.5ms"
      ∧ appendDurationBytes 42 = strBytes "42ns"
      ∧ appendDurationBytes (-1500000) = refDurationBytes (-1500000) := by
  refine ⟨by decide, by decide, by decide, by decide⟩

/-! ## Time formatting (builder.go, `Builder.AppendTime`) -/

/-- Flag `Tdate` of builder.go: the date 2006-01-02. -/
def Tdate : Nat := 1

/-- Flag `Ttimeprefix` of builder.go (renamed here): use a T between date and
time instead of a space. -/
def TtimePre : Nat := 2

/-- Flag `Ttime` of builder.go: the time 15:04:05. -/
def Ttime : Nat := 4

/-- Flag `Tmilliseconds` of builder.go. -/
def Tmilliseconds : Nat := 8

/-- Flag `Tmicroseconds` of builder.go. -/
def Tmicroseconds : Nat := 16

/-- Flag `Tnanoseconds` of builder.go. -/
def Tnanoseconds : Nat := 32

/-- Flag `TnineFlag` of builder.go: trim the zero suffix of the fraction. -/
def TnineFlag : Nat := 64

/-- Flag `Tzone` of builder.go: the zone suffix Z07:00. -/
def Tzone : Nat := 128

/-- Flag combination `Tdatetime` of builder.go. -/
def Tdatetime : Nat := Tdate ||| Ttime

/-- Flag combination `TdatetimeMilli` of builder.go. -/
def TdatetimeMilli : Nat := Tdate ||| Ttime ||| Tmilliseconds

/-- Flag combination `TdatetimeMicro` of builder.go. -/
def TdatetimeMicro : Nat := Tdate ||| Ttime ||| Tmicroseconds

/-- Flag combination `TdatetimeNano` of builder.go. -/
def TdatetimeNano : Nat := Tdate ||| Ttime ||| Tnanoseconds

/-- Flag combination `Trfc3339` of builder.go (time.RFC3339). -/
def Trfc3339 : Nat := Tdate ||| TtimePre ||| Ttime ||| Tzone

/-- Flag combination `Trfc3339Nano` of builder.go (time.RFC3339Nano). -/
def Trfc3339Nano : Nat := Tdate ||| TtimePre ||| Ttime ||| Tnanoseconds ||| TnineFlag ||| Tzone

/-- Remove the trailing '0' bytes of a digit block, as the copy loop of
`fmtNano` (builder.go) does when the nine flag is set. -/
def dropTrailingZeroBytes (l : List Nat) : List Nat :=
  (l.reverse.dropWhile (fun c => c == 48)).reverse

/-- Embedding of `fmtNano` (builder.go): the sub-second fraction, `wid`
digits; with `trimZeroSuffix` the zero suffix and, when the whole fraction is
zero, the decimal point are omitted. -/
def fmtNanoList (nano : Nat) (wid : Nat) (trimZeroSuffix : Bool) : List Nat :=
  let nano2 := nano / 10 ^ (9 - wid)
  if nano2 > 0 ∨ trimZeroSuffix = false then
    let ds := fmtIntList nano2 (Int.ofNat wid)
    let ds2 := if trimZeroSuffix then dropTrailingZeroBytes ds else ds
    46 :: ds2
  else []

/-- Snapshot of the components of a Go `time.Time` that `AppendTime` reads:
`t.Date()`, `t.Clock()`, `t.Nanosecond()` and the offset seconds of
`t.Zone()`. -/
structure GoTime where
  year : Int
  month : Nat
  day : Nat
  hour : Nat
  minute : Nat
  sec : Nat
  nano : Nat
  zoneOffset : Int
deriving DecidableEq, Repr

/-- Embedding of the zone branch of `Builder.AppendTime` (builder.go): a 'Z'
for offset zero, otherwise a sign, then `fmtInt(uint64(hour), 2)`, a colon and
`fmtInt(uint64(min), 2)`, where `hour` and `min` are computed with Go's
truncating division/remainder and are negative for a negative offset before
the `uint64` conversion. -/
def zoneBytes (offset : Int) : List Nat :=
  if offset = 0 then [90]
  else
    let pre : Nat := if offset < 0 then 45 else 43
    let hour := offset.tdiv 3600
    let minute := (offset.tdiv 60).tmod 60
    pre :: (fmtIntList (goUint64 hour) 2 ++ [58] ++ fmtIntList (goUint64 minute) 2)

/-- Embedding of `Builder.AppendTime` (builder.go). The source fills a fixed
buffer from the end (zone, then fraction, clock and separator, then date) and
appends `buf[w:]`; the appended bytes are the concatenation modelled here. -/
def appendTimeBytes (t : GoTime) (flag : Nat) : List Nat :=
  let zone := if flag &&& Tzone ≠ 0 then zoneBytes t.zoneOffset else []
  let timeB :=
    if flag &&& (Ttime ||| Tmilliseconds ||| Tmicroseconds ||| Tzone) ≠ 0 then
      let frac :=
        if flag &&& (Tmilliseconds ||| Tmicroseconds ||| Tnanoseconds) ≠ 0 then
          if flag &&& Tnanoseconds ≠ 0 then fmtNanoList t.nano 9 (flag &&& TnineFlag ≠ 0)
          else if flag &&& Tmicroseconds ≠ 0 then fmtNanoList t.nano 6 (flag &&& TnineFlag ≠ 0)
          else fmtNanoList t.nano 3 (flag &&& TnineFlag ≠ 0)
        else []
      let clock :=
        fmtIntList t.hour 2 ++ [58] ++ fmtIntList t.minute 2 ++ [58] ++ fmtIntList t.sec 2
      let sep := if flag &&& Tdate ≠ 0 then (if flag &&& TtimePre ≠ 0 then [84] else [32]) else []
      sep ++ clock ++ frac
    else []
  let dateB :=
    if flag &&& Tdate ≠ 0 then
      fmtIntList (goUint64 t.year) 4 ++ [45] ++ fmtIntList t.month 2 ++ [45] ++ fmtIntList t.day 2
    else []
  dateB ++ timeB ++ zone

/-- Decimal digits of a natural number, zero-padded on the left to `wid`
digits, used by the reference formatter below. -/
def padDec (n : Nat) (wid : Nat) : List Nat :=
  fmtIntList n (Int.ofNat wid)

/-- Modelled from the spec: the zone suffix the general-purpose layout
formatter (`time.Time.Format` with layout Z07:00) produces, which claim C1
names as the reference: 'Z' for offset zero, otherwise a sign followed by the
absolute offset's hours and minutes, two digits each. -/
def refZoneBytes (offset : Int) : List Nat :=
  if offset = 0 then [90]
  else
    (if offset < 0 then 45 else 43)
      :: (padDec (offset.natAbs / 3600) 2 ++ [58] ++ padDec (offset.natAbs / 60 % 60) 2)

/-- Modelled from the spec: the output of the general-purpose layout formatter
for the RFC3339 layout 2006-01-02T15:04:05Z07:00, the layout equivalent to
flag `Trfc3339`. -/
def refRFC3339Bytes (t : GoTime) : List Nat :=
  padDec (goUint64 t.year) 4 ++ [45] ++ padDec t.month 2 ++ [45] ++ padDec t.day 2
    ++ [84] ++ padDec t.hour 2 ++ [58] ++ padDec t.minute 2 ++ [58] ++ padDec t.sec 2
    ++ refZoneBytes t.zoneOffset

/-- Sample timestamp of the repository's own tests (2019-01-18 12:00:35 UTC
with 9876ns), placed in the fixed zone UTC-05:00 (offset -18000 seconds). -/
def tNegZone : GoTime :=
  { year := 2019, month := 1, day := 18, hour := 12, minute := 0, sec := 35,
    nano := 0, zoneOffset := -18000 }

/-- Sanity: on UTC and positive-offset timestamps the fast path agrees with
the reference layout formatter (the repository's own test vectors). -/
theorem appendTime_matches_ref_sample :
    appendTimeBytes { tNegZone with zoneOffset := 0 } Trfc3339
        = refRFC3339Bytes { tNegZone with zoneOffset := 0 }
      ∧ appendTimeBytes { tNegZone with zoneOffset := 28800 } Trfc3339
        = refRFC3339Bytes { tNegZone with zoneOffset := 28800 }
      ∧ appendTimeBytes { tNegZone with zoneOffset := 0 } Trfc3339
        = strBytes "2019-01-18T12:00:35Z"
      ∧ appendTimeBytes { tNegZone with nano := 9876, zoneOffset := 0 } Trfc3339Nano
        = strBytes "2019-01-18T12:00:35.000009876Z"
      ∧ appendTimeBytes { tNegZone with nano := 9876 } (TdatetimeMicro)
        = strBytes "2019-01-18 12:00:35.000009" := by
  refine ⟨by decide, by decide, by decide, by decide, by decide⟩

/-- C1: for a timestamp in a zone with a negative UTC offset the fixed-path
formatter does not produce the layout formatter's output. The spec (and the
source's own documentation of `Tzone`, layout Z07:00) require the suffix
-05:00 for offset -18000; the code converts the negative hour and minute
counts through `uint64` before `fmtInt`, so it renders the two's complement
value 2^64-5 instead (in Go the twenty digits also overrun the fixed 40-byte
buffer and the call panics with an index-out-of-range). The zero/positive
offset cases agree with the reference, so the claim is right and the code has
the bug. -/
theorem appendTime_negative_zone_diverges :
    appendTimeBytes tNegZone Trfc3339
        = strBytes "2019-01-18T12:00:35-18446744073709551611:00"
      ∧ refRFC3339Bytes tNegZone = strBytes "2019-01-18T12:00:35-05:00"
      ∧ appendTimeBytes tNegZone Trfc3339 ≠ refRFC3339Bytes tNegZone := by
  refine ⟨by decide, by decide, by decide⟩

/-- C2: the zero duration. `AppendDuration` writes "0s" in the `u == 0` case
but, unlike the reference formatter it was ported from, does not return
there: the subsequent `fmtFrac`/`fmtInt` calls emit one more '0' digit and
the buffer slot reserved for the unit letter is flushed while still holding
its zero initial value, so the appended bytes are '0','s','0',0x00,'s'
instead of the reference output "0s". Nonzero durations agree with the
reference (see the sanity theorems above). -/
theorem appendDuration_zero_diverges :
    appendDurationBytes 0 = [48, 115, 48, 0, 115]
      ∧ refDurationBytes 0 = strBytes "0s"
      ∧ appendDurationBytes 0 ≠ refDurationBytes 0 := by
  refine ⟨by decide, by decide, by decide⟩

/-! ## String escaping and base64 (builder.go) -/

/-- Lower-case hex digit, as the `_hex` table of builder.go. -/
def hexDigit (d : Nat) : Nat :=
  if d < 10 then 48 + d else 87 + d

/-- Embedding of the `safeSet` table of builder.go: true except for the ASCII
control characters (0-31), the double quote and the backslash. -/
def safeSetB (c : Nat) : Bool :=
  decide (32 ≤ c) && !(c == 92) && !(c == 34)

/-- Embedding of the `htmlSafeSet` table of builder.go: `safeSet` minus the
two angle brackets and the ampersand. -/
def htmlSafeSetB (c : Nat) : Bool :=
  safeSetB c && !(c == 60) && !(c == 62) && !(c == 38)

/-- Escape sequence `appendEscape` (builder.go) emits for an unsafe ASCII
byte: a backslash, then the byte itself for backslash and quote, a named
escape for newline, carriage return and tab, and `u00XX` otherwise. -/
def escByteBytes (c : Nat) : List Nat :=
  92 :: (if c = 92 ∨ c = 34 then [c]
         else if c = 10 then [110]
         else if c = 13 then [114]
         else if c = 9 then [116]
         else [117, 48, 48, hexDigit (c / 16), hexDigit (c % 16)])

/-- Embedding of `utf8.DecodeRuneInString` on a non-empty byte list starting
with byte `c0 ≥ 0x80` (also total on ASCII for convenience): returns the rune
and its encoded size, with `(0xFFFD, 1)` for every invalid or truncated
sequence, as the Go decoder does. -/
def utf8DecodeFirst (c0 : Nat) (rest : List Nat) : Nat × Nat :=
  if c0 < 128 then (c0, 1)
  else if c0 < 194 then (65533, 1)
  else if c0 ≤ 223 then
    match rest with
    | c1 :: _ =>
      if 128 ≤ c1 ∧ c1 ≤ 191 then ((c0 - 192) * 64 + (c1 - 128), 2) else (65533, 1)
    | _ => (65533, 1)
  else if c0 ≤ 239 then
    let lo := if c0 = 224 then 160 else 128
    let hi := if c0 = 237 then 159 else 191
    match rest with
    | c1 :: c2 :: _ =>
      if lo ≤ c1 ∧ c1 ≤ hi ∧ 128 ≤ c2 ∧ c2 ≤ 191 then
        ((c0 - 224) * 4096 + (c1 - 128) * 64 + (c2 - 128), 3)
      else (65533, 1)
    | _ => (65533, 1)
  else if c0 ≤ 244 then
    let lo := if c0 = 240 then 144 else 128
    let hi := if c0 = 244 then 143 else 191
    match rest with
    | c1 :: c2 :: c3 :: _ =>
      if lo ≤ c1 ∧ c1 ≤ hi ∧ 128 ≤ c2 ∧ c2 ≤ 191 ∧ 128 ≤ c3 ∧ c3 ≤ 191 then
        ((c0 - 240) * 262144 + (c1 - 128) * 4096 + (c2 - 128) * 64 + (c3 - 128), 4)
      else (65533, 1)
    | _ => (65533, 1)
  else (65533, 1)

/-- Loop of `appendEscape` (builder.go) with explicit fuel (each pass consumes
at least one input byte, so `appendEscapeList` supplies the input length as
fuel and the zero-fuel branch is unreachable): safe ASCII bytes are copied,
unsafe ASCII bytes escaped, invalid sequences become the replacement-character
escape, U+2028/U+2029 the `u202X` escape, and other multi-byte runes are
copied verbatim. -/
def appendEscapeAux (safe : Nat → Bool) : Nat → List Nat → List Nat
  | 0, _ => []
  | _ + 1, [] => []
  | fuel + 1, c :: rest =>
    if c < 128 then
      if safe c then c :: appendEscapeAux safe fuel rest
      else escByteBytes c ++ appendEscapeAux safe fuel rest
    else
      let rs := utf8DecodeFirst c rest
      if rs.1 = 65533 ∧ rs.2 = 1 then
        [92, 117, 102, 102, 102, 100] ++ appendEscapeAux safe fuel rest
      else if rs.1 = 8232 ∨ rs.1 = 8233 then
        [92, 117, 50, 48, 50, hexDigit (rs.1 % 16)]
          ++ appendEscapeAux safe fuel (rest.drop (rs.2 - 1))
      else
        (c :: rest.take (rs.2 - 1)) ++ appendEscapeAux safe fuel (rest.drop (rs.2 - 1))

/-- Embedding of `Builder.appendEscape` (builder.go). -/
def appendEscapeList (safe : Nat → Bool) (s : List Nat) : List Nat :=
  appendEscapeAux safe s.length s

/-- Embedding of `Builder.AppendQuote` (builder.go): a double-quoted escaped
string using `safeSet`. -/
def appendQuoteBytes (s : List Nat) : List Nat :=
  [34] ++ appendEscapeList safeSetB s ++ [34]

/-- Embedding of `Builder.AppendHTMLQuote` (builder.go): a double-quoted
escaped string using `htmlSafeSet`. -/
def appendHTMLQuoteBytes (s : List Nat) : List Nat :=
  [34] ++ appendEscapeList htmlSafeSetB s ++ [34]

/-- Character of the standard base64 alphabet (base64.StdEncoding). -/
def b64Char (n : Nat) : Nat :=
  if n < 26 then 65 + n
  else if n < 52 then 97 + (n - 26)
  else if n < 62 then 48 + (n - 52)
  else if n = 62 then 43
  else 47

/-- Embedding of `Builder.AppendByteSlice` (builder.go): standard padded
base64 of the bytes, as `base64.StdEncoding.Encode` produces. -/
def base64Bytes : List Nat → List Nat
  | b0 :: b1 :: b2 :: rest =>
    [b64Char (b0 / 4), b64Char (b0 % 4 * 16 + b1 / 16),
     b64Char (b1 % 16 * 4 + b2 / 64), b64Char (b2 % 64)] ++ base64Bytes rest
  | [b0, b1] =>
    [b64Char (b0 / 4), b64Char (b0 % 4 * 16 + b1 / 16), b64Char (b1 % 16 * 4), 61]
  | [b0] => [b64Char (b0 / 4), b64Char (b0 % 4 * 16), 61, 61]
  | [] => []

/-- Sanity: escaping and base64 reproduce the repository's test vectors. -/
theorem escape_base64_samples :
    appendQuoteBytes (strBytes "ok\n") = strBytes "\"ok\\n\""
      ∧ appendHTMLQuoteBytes (strBytes "a<b&c") = strBytes "\"a\\u003cb\\u0026c\""
      ∧ base64Bytes (strBytes "any + old & data") = strBytes "YW55ICsgb2xkICYgZGF0YQ=="
      ∧ base64Bytes [69, 86, 153, 248, 255, 0] = strBytes "RVaZ+P8A" := by
  refine ⟨by decide, by decide, by decide, by decide⟩

/-! ## Errors (error.go) -/

/-- Model of Go `error` values flowing through the core: the sentinel
`io.ErrShortWrite`, opaque single errors distinguished by a tag, and the
`multiError` aggregate of error.go. -/
inductive GoErr : Type where
  | shortWrite : GoErr
  | tagE : Nat → GoErr
  | multiE : List GoErr → GoErr

/-- Top-level error list of an error, as `combineErrors` (error.go) flattens
one level of `multiError`. -/
def errFlat1 : GoErr → List GoErr
  | .multiE es => es
  | e => [e]

/-- Embedding of `combineErrors` (error.go): nil absorbs, otherwise the two
errors' top-level lists are concatenated into one `multiError`. -/
def combineErrors : Option GoErr → Option GoErr → Option GoErr
  | none, r => r
  | some l, none => some l
  | some l, some r => some (.multiE (errFlat1 l ++ errFlat1 r))

/-- Top-level error list of an optional error (empty for nil). -/
def errToList : Option GoErr → List GoErr
  | none => []
  | some e => errFlat1 e

/-! ## Value encoding (builder.go `Builder.AppendJSON`, entry.go `Field`) -/

/-- Decimal bytes of a `uint64`, as `Builder.AppendUint` appends
(strconv.AppendUint base 10). -/
def natDecBytes (n : Nat) : List Nat :=
  fmtIntList n (-1)

/-- Decimal bytes of an `int64`, as `Builder.AppendInt` appends
(strconv.AppendInt base 10): a minus sign for negatives, no leading zeros. -/
def intDecBytes (i : Int) : List Nat :=
  if i < 0 then 45 :: natDecBytes i.natAbs else natDecBytes i.toNat

/-- Bytes of `Builder.AppendBool` (strconv.AppendBool). -/
def boolBytes (b : Bool) : List Nat :=
  if b then strBytes "true" else strBytes "false"

/-- Literal `null` bytes. -/
def nullBytes : List Nat := [110, 117, 108, 108]

/-- Embedding of `Builder.appendNullOrElse` (builder.go): `null` for a nil Go
slice, otherwise the given rendering; a Go nil slice is modelled as `none`
and a non-nil slice as `some` of its element list. -/
def nullOrElse {α : Type} (v : Option α) (elseOp : α → List Nat) : List Nat :=
  match v with
  | none => nullBytes
  | some x => elseOp x

/-- Comma-joined renderings, as the `for i, e := range v` loops of
`AppendJSON` produce. -/
def joinComma : List (List Nat) → List Nat
  | [] => []
  | [x] => x
  | x :: xs => x ++ [44] ++ joinComma xs

/-- Values of the `AppendJSON` type switch modelled in this development.
Pointer cases dereference to the same rendering as the value cases and are
not modelled separately; the integer widths int8..int64 (resp. uint8..uint64)
all render through `AppendInt` (resp. `AppendUint`) after widening, so one
constructor per sign covers them. `vGeneric` stands for a value that falls
through to the reflection-based `json.Encoder` default branch: it carries the
bytes that encoder writes to the builder (via `Builder.Write`, hence
append-only) and the error it returns. -/
inductive GoVal : Type where
  | vNull : GoVal
  | vStr : List Nat → GoVal
  | vBool : Bool → GoVal
  | vInt : Int → GoVal
  | vUint : Nat → GoVal
  | vStrs : Option (List (List Nat)) → GoVal
  | vBools : Option (List Bool) → GoVal
  | vInts : Option (List Int) → GoVal
  | vUints : Option (List Nat) → GoVal
  | vBytes : Option (List Nat) → GoVal
  | vDur : Int → GoVal
  | vTime : GoTime → GoVal
  | vGeneric : List Nat → Option GoErr → GoVal

/-- Embedding of the default branch of `Builder.AppendJSON` (builder.go,
lines 674-686), the only state-dependent step of the encoder: the reflection
encoder appends `emit` to the buffer `b`; on error the buffer is truncated
back to its pre-call length and the error returned; on success the trailing
newline the `json.Encoder` wrote is dropped. -/
def appendJSONReflectDefault (b : List Nat) (emit : List Nat) (err : Option GoErr) :
    List Nat × Option GoErr :=
  let l := b.length
  let b2 := b ++ emit
  match err with
  | some e => (b2.take l, some e)
  | none => (b2.take (b2.length - 1), none)

/-- Embedding of `Builder.AppendJSON` (builder.go) on the modelled values,
returning the appended bytes and the returned error (every branch except the
reflection default appends unconditionally and returns nil). -/
def appendJSONv : GoVal → List Nat × Option GoErr
  | .vNull => (nullBytes, none)
  | .vStr s => (appendHTMLQuoteBytes s, none)
  | .vBool b => (boolBytes b, none)
  | .vInt i => (intDecBytes i, none)
  | .vUint u => (natDecBytes u, none)
  | .vStrs v => (nullOrElse v (fun l => [91] ++ joinComma (l.map appendHTMLQuoteBytes) ++ [93]), none)
  | .vBools v => (nullOrElse v (fun l => [91] ++ joinComma (l.map boolBytes) ++ [93]), none)
  | .vInts v => (nullOrElse v (fun l => [91] ++ joinComma (l.map intDecBytes) ++ [93]), none)
  | .vUints v => (nullOrElse v (fun l => [91] ++ joinComma (l.map natDecBytes) ++ [93]), none)
  | .vBytes v => (nullOrElse v (fun bs => [34] ++ base64Bytes bs ++ [34]), none)
  | .vDur d => ([34] ++ appendDurationBytes d ++ [34], none)
  | .vTime t => ([34] ++ appendTimeBytes t Trfc3339Nano ++ [34], none)
  | .vGeneric emit err => appendJSONReflectDefault [] emit err

/-- C8 counterexample: a non-nil empty byte slice (Go `[]byte{}`) is a
supported slice-typed value, but `AppendJSON` renders it as the double-quoted
base64 of no bytes, i.e. `""`, not as `[]` as the claim states for every
non-nil empty slice. -/
theorem appendJSON_empty_byte_slice_not_brackets :
    (appendJSONv (.vBytes (some []))).1 = [34, 34]
      ∧ (appendJSONv (.vBytes (some []))).1 ≠ strBytes "[]" := by
  refine ⟨by decide, by decide⟩

/-- C8 (amended): a nil slice of any supported element type renders as
`null`; a non-nil empty slice renders as `[]` for every supported slice type
except byte slices; a byte slice (nil excepted) renders as the double-quoted
standard base64 of its contents — so the empty non-nil byte slice renders as
`""`. None of these branches can fail. -/
theorem appendJSON_slice_nil_empty (bs : List Nat) :
    appendJSONv (.vStrs none) = (nullBytes, none)
      ∧ appendJSONv (.vBools none) = (nullBytes, none)
      ∧ appendJSONv (.vInts none) = (nullBytes, none)
      ∧ appendJSONv (.vUints none) = (nullBytes, none)
      ∧ appendJSONv (.vBytes none) = (nullBytes, none)
      ∧ appendJSONv (.vStrs (some [])) = ([91, 93], none)
      ∧ appendJSONv (.vBools (some [])) = ([91, 93], none)
      ∧ appendJSONv (.vInts (some [])) = ([91, 93], none)
      ∧ appendJSONv (.vUints (some [])) = ([91, 93], none)
      ∧ appendJSONv (.vBytes (some bs)) = ([34] ++ base64Bytes bs ++ [34], none) := by
  refine ⟨rfl, rfl, rfl, rfl, rfl, rfl, rfl, rfl, rfl, rfl⟩

/-- C10: whenever a value that falls through to the generic structural
encoder produces an error, `AppendJSON` truncates the builder back to its
pre-call length, so the buffered content is exactly what it was before the
call (earlier bytes unchanged) and the error is surfaced; no partially
written field bytes remain. -/
theorem appendJSON_generic_error_rolls_back (b emit : List Nat) (e : GoErr) :
    appendJSONReflectDefault b emit (some e) = (b, some e) := by
  simp [appendJSONReflectDefault]

/-! ## Field model (entry.go) -/

mutual
/-- Value of a `Field` (entry.go): the `appendTo` type switch intercepts a
nested `Field`, an object `O` and a slice `[]O`; every other value is handed
to `Builder.AppendJSON` (the `prim` case). -/
inductive FVal : Type where
  | prim : GoVal → FVal
  | nested : List Nat → FVal → FVal
  | obj : GoFields → FVal
  | arr : GoObjs → FVal

/-- Ordered list of fields (`[]Field` / `O` of entry.go), as its own
inductive so that the mutual recursion below is structural. -/
inductive GoFields : Type where
  | fnil : GoFields
  | fcons : List Nat → FVal → GoFields → GoFields

/-- Ordered list of objects (`[]O` of entry.go). -/
inductive GoObjs : Type where
  | onil : GoObjs
  | ocons : GoFields → GoObjs → GoObjs
end

mutual
/-- Embedding of the value part of `Field.appendTo` (entry.go): a nested
field or object in braces, a `[]O` as a bracketed comma-joined list of
braced objects, anything else through `AppendJSON` with the returned error
discarded, as the source discards it. -/
def FVal.renderVal : FVal → List Nat
  | .prim g => (appendJSONv g).1
  | .nested k v => [123] ++ (appendQuoteBytes k ++ [58] ++ FVal.renderVal v) ++ [125]
  | .obj fs => [123] ++ GoFields.renderJoin fs ++ [125]
  | .arr os => [91] ++ GoObjs.renderJoin os ++ [93]

/-- Embedding of `O.appendTo` (entry.go): comma-joined `"key":value`
renderings, in order. -/
def GoFields.renderJoin : GoFields → List Nat
  | .fnil => []
  | .fcons k v rest =>
    (appendQuoteBytes k ++ [58] ++ FVal.renderVal v) ++ GoFields.renderJoinRest rest

/-- Tail of `O.appendTo`: every field after the first is preceded by a
comma. -/
def GoFields.renderJoinRest : GoFields → List Nat
  | .fnil => []
  | .fcons k v rest =>
    [44] ++ (appendQuoteBytes k ++ [58] ++ FVal.renderVal v) ++ GoFields.renderJoinRest rest

/-- The `[]O` loop of `Field.appendTo`: braced objects, comma-joined. -/
def GoObjs.renderJoin : GoObjs → List Nat
  | .onil => []
  | .ocons fs rest => ([123] ++ GoFields.renderJoin fs ++ [125]) ++ GoObjs.renderJoinRest rest

/-- Tail of the `[]O` loop: later objects preceded by a comma. -/
def GoObjs.renderJoinRest : GoObjs → List Nat
  | .onil => []
  | .ocons fs rest =>
    [44] ++ ([123] ++ GoFields.renderJoin fs ++ [125]) ++ GoObjs.renderJoinRest rest
end

/-- True when a field list is empty (`len(...) == 0` in the encoders). -/
def GoFields.isNil : GoFields → Bool
  | .fnil => true
  | _ => false

/-! ## Entry model and levels -/

/-- Modelled from the spec: level.go is not under src/. The spec's Level is a
small totally ordered enumeration Debug < Info < Warn < Error < Panic <
Fatal; the numbering follows the zap lineage the repository names (Debug is
-1) and fits the `[_maxLevel + 2]bool` table and `lvl + 1` indexing of the
multiCore source. -/
def DebugLevel : Int := -1

/-- Modelled from the spec: the Info level. -/
def InfoLevel : Int := 0

/-- Modelled from the spec: the Warn level. -/
def WarnLevel : Int := 1

/-- Modelled from the spec: the Error level. -/
def ErrorLevel : Int := 2

/-- Modelled from the spec: the Panic level. -/
def PanicLevel : Int := 3

/-- Modelled from the spec: the Fatal level. -/
def FatalLevel : Int := 4

/-- Modelled from the spec: the minimum legal level (`_minLevel`). -/
def minLevel : Int := DebugLevel

/-- Modelled from the spec: the maximum legal level (`_maxLevel`). -/
def maxLevel : Int := FatalLevel

/-- Modelled from the spec: the fixed uppercase level name the JSON encoder
writes (`Level.CapitalString`); the repository's test fixes INFO for the
Info level. Out-of-range levels never reach the encoders in the modelled
paths; they map to the empty name. -/
def capitalStr (l : Int) : List Nat :=
  if l = DebugLevel then strBytes "DEBUG"
  else if l = InfoLevel then strBytes "INFO"
  else if l = WarnLevel then strBytes "WARN"
  else if l = ErrorLevel then strBytes "ERROR"
  else if l = PanicLevel then strBytes "PANIC"
  else if l = FatalLevel then strBytes "FATAL"
  else []

/-- Embedding of `EntryCaller` (entry.go) as the encoders read it (the pc is
not used by any modelled path). -/
structure GoCaller where
  defined : Bool
  file : List Nat
  line : Int

/-- Embedding of `Entry` (entry.go). -/
structure GoEntry where
  level : Int
  time : GoTime
  caller : GoCaller
  message : List Nat
  fields : GoFields
  loggerName : List Nat
  ctx : GoFields

/-! ## Encoders (the flags and encoders concatenated after
logger_bench_test.go in the sources) -/

/-- Flag `Ldate`. -/
def Ldate : Nat := 1

/-- Flag `Ltime`. -/
def Ltime : Nat := 2

/-- Flag `Lmicroseconds`. -/
def Lmicroseconds : Nat := 4

/-- Flag `Llongfile`. -/
def Llongfile : Nat := 8

/-- Flag `Lshortfile`. -/
def Lshortfile : Nat := 16

/-- Flag `LUTC`. -/
def LUTC : Nat := 32

/-- Flag combination `LstdFlags`. -/
def LstdFlags : Nat := Ldate ||| Ltime

/-- Embedding of `timeFlags`: derives the `AppendTime` mask from the
console-encoder flags. -/
def timeFlags (flags : Nat) : Nat :=
  (if flags &&& Ldate ≠ 0 then Tdate else 0)
    ||| (if flags &&& Ltime ≠ 0 then Ttime else 0)
    ||| (if flags &&& Lmicroseconds ≠ 0 then Tmicroseconds else 0)

/-- Index of the last '/' byte at a position strictly greater than zero, as
the `for i := len(file) - 1; i > 0; i--` loop of `callerFile` scans. -/
def lastSlashPos (file : List Nat) : Option Nat :=
  (List.range file.length).reverse.find? (fun i => decide (0 < i) && (file.getD i 0 == 47))

/-- Embedding of `callerFile`: with `Lshortfile` the suffix after the last
slash (the file unchanged when no slash is found past position zero), else
the full file. -/
def callerFileBytes (file : List Nat) (flags : Nat) : List Nat :=
  if flags &&& Lshortfile ≠ 0 then
    match lastSlashPos file with
    | some i => file.drop (i + 1)
    | none => file
  else file

/-- Caller rendering shared by both encoders: `file:line` with the line from
`Builder.AppendInt`. -/
def callerBytes (c : GoCaller) (flags : Nat) : List Nat :=
  callerFileBytes c.file flags ++ [58] ++ intDecBytes c.line

/-- Embedding of `jsonEncoder.Encode`: the appended bytes, in the source's
statement order (the function always returns nil, and every step appends). -/
def jsonEncodeBytes (flags : Nat) (e : GoEntry) : List Nat :=
  [123]
    ++ strBytes "\"level\":\"" ++ capitalStr e.level ++ [34]
    ++ strBytes ",\"time\":" ++ [34] ++ appendTimeBytes e.time Trfc3339Nano ++ [34]
    ++ (if e.loggerName.isEmpty then []
        else strBytes ",\"logger\":" ++ appendHTMLQuoteBytes e.loggerName)
    ++ (if (decide (flags &&& (Llongfile ||| Lshortfile) ≠ 0) && e.caller.defined) = true then
          strBytes ",\"caller\":\"" ++ callerBytes e.caller flags ++ [34]
        else [])
    ++ strBytes ",\"msg\":" ++ appendHTMLQuoteBytes e.message
    ++ (if e.ctx.isNil then [] else [44] ++ GoFields.renderJoin e.ctx)
    ++ (if e.fields.isNil then [] else [44] ++ GoFields.renderJoin e.fields)
    ++ [125, 10]

/-- One member list of the spec's JSON line, written from the spec's words:
level, time, optional logger, optional caller, msg, then the inherited
context fields, then the call-site fields, flattened into one object and
newline-terminated. Claim C3 asserts the encoder produces exactly this. -/
def specJsonLine (flags : Nat) (e : GoEntry) : List Nat :=
  let memberLevel := strBytes "\"level\":\"" ++ capitalStr e.level ++ [34]
  let memberTime := strBytes ",\"time\":\"" ++ appendTimeBytes e.time Trfc3339Nano ++ [34]
  let memberLogger :=
    if e.loggerName.isEmpty then []
    else strBytes ",\"logger\":" ++ appendHTMLQuoteBytes e.loggerName
  let memberCaller :=
    if (decide (flags &&& (Llongfile ||| Lshortfile) ≠ 0) && e.caller.defined) = true then
      strBytes ",\"caller\":\"" ++ callerBytes e.caller flags ++ [34]
    else []
  let memberMsg := strBytes ",\"msg\":" ++ appendHTMLQuoteBytes e.message
  let ctxMembers := if e.ctx.isNil then [] else [44] ++ GoFields.renderJoin e.ctx
  let fieldMembers := if e.fields.isNil then [] else [44] ++ GoFields.renderJoin e.fields
  [123] ++ memberLevel ++ memberTime ++ memberLogger ++ memberCaller ++ memberMsg
    ++ ctxMembers ++ fieldMembers ++ [125, 10]

/-- C3: for every entry and flag set, the JSON encoder appends exactly one
newline-terminated object whose members appear in the order level, time,
logger (iff the logger name is non-empty), caller as a file:line string (iff
a file flag is set and the caller is defined), msg, then the inherited
context fields, then the call-site fields, all flattened into the same
top-level object. -/
theorem jsonEncode_member_order (flags : Nat) (e : GoEntry) :
    jsonEncodeBytes flags e = specJsonLine flags e := by
  simp [jsonEncodeBytes, specJsonLine, strBytes, utf8EncodeCharBytes]

set_option maxRecDepth 40000 in
/-- Sanity: the JSON encoder reproduces the repository's own
`TestCore_Write_json` expectation byte for byte. -/
theorem jsonEncode_matches_repo_test :
    jsonEncodeBytes Lshortfile
        { level := InfoLevel,
          time := { year := 2019, month := 1, day := 18, hour := 12, minute := 0,
                    sec := 35, nano := 9876, zoneOffset := 0 },
          caller := { defined := true,
                      file := strBytes "github.com/cnotch/xlog/core_test.go", line := 30 },
          message := strBytes "info message",
          fields := .fcons (strBytes "int") (.prim (.vInt 100))
            (.fcons (strBytes "str") (.prim (.vStr (strBytes "ok"))) .fnil),
          loggerName := [],
          ctx := .fcons (strBytes "instance") (.prim (.vInt 9000)) .fnil }
      = strBytes
        "\x7b\"level\":\"INFO\",\"time\":\"2019-01-18T12:00:35.000009876Z\",\"caller\":\"core_test.go:30\",\"msg\":\"info message\",\"instance\":9000,\"int\":100,\"str\":\"ok\"\x7d\n" := by
  decide

/-- Modelled from the spec: the console level token (`Level.consoleString`,
in the missing level.go). The spec's console line format section 6 shows it
as the uppercase level name. -/
def consoleStr (l : Int) : List Nat :=
  capitalStr l

/-- Embedding of `consoleEncoder.Encode`: the appended bytes, in the source's
statement order. The conversion `t.UTC()` of the Go time library is not
derivable from the `GoTime` snapshot, so it is abstracted as the function
argument `utc` (only applied when the `LUTC` flag is set, as in the
source). -/
def consoleEncodeBytes (utc : GoTime → GoTime) (flags : Nat) (e : GoEntry) : List Nat :=
  let tflag := timeFlags flags
  let t := if flags &&& LUTC ≠ 0 then utc e.time else e.time
  let callerShown := decide (flags &&& (Llongfile ||| Lshortfile) ≠ 0) && e.caller.defined
  consoleStr e.level
    ++ (if tflag ≠ 0 then [32] ++ appendTimeBytes t tflag ++ [32] else [32])
    ++ (if e.loggerName.isEmpty then [] else e.loggerName)
    ++ (if callerShown then
          (if e.loggerName.isEmpty then [] else [58]) ++ callerBytes e.caller flags
        else [])
    ++ (if !e.loggerName.isEmpty || callerShown then [58, 32] else [])
    ++ e.message ++ [10]
    ++ (if e.ctx.isNil && e.fields.isNil then []
        else
          [32, 45, 32, 32, 123]
            ++ (if e.ctx.isNil then [] else GoFields.renderJoin e.ctx)
            ++ (if !e.fields.isNil && !e.ctx.isNil then [44] else [])
            ++ (if e.fields.isNil then [] else GoFields.renderJoin e.fields)
            ++ [125, 10])

/-- Console line as the amended claim C4 describes it: level token; a space,
then the timestamp and a space when the derived time flags are non-zero (a
single space otherwise); the logger name when non-empty and the file:line
caller when a file flag is set and the caller is defined, colon-joined when
both are present; then the separator ": " if and only if at least one of the
name or caller segments was emitted; the message and a newline; and a second
line " -  {" fields "}\n" iff the context or call-site field list is
non-empty, context fields first, comma-joined. -/
def specConsoleLine (utc : GoTime → GoTime) (flags : Nat) (e : GoEntry) : List Nat :=
  let tflag := timeFlags flags
  let t := if flags &&& LUTC ≠ 0 then utc e.time else e.time
  let callerShown := decide (flags &&& (Llongfile ||| Lshortfile) ≠ 0) && e.caller.defined
  let timeSeg := if tflag ≠ 0 then [32] ++ appendTimeBytes t tflag ++ [32] else [32]
  let nameSeg := if e.loggerName.isEmpty then [] else e.loggerName
  let callerSeg :=
    if callerShown then
      (if e.loggerName.isEmpty then [] else [58]) ++ callerBytes e.caller flags
    else []
  let sepSeg := if !e.loggerName.isEmpty || callerShown then [58, 32] else []
  let fieldsSeg :=
    if e.ctx.isNil && e.fields.isNil then []
    else
      [32, 45, 32, 32, 123]
        ++ (if e.ctx.isNil then [] else GoFields.renderJoin e.ctx)
        ++ (if !e.fields.isNil && !e.ctx.isNil then [44] else [])
        ++ (if e.fields.isNil then [] else GoFields.renderJoin e.fields)
        ++ [125, 10]
  consoleStr e.level ++ timeSeg ++ nameSeg ++ callerSeg ++ sepSeg
    ++ e.message ++ [10] ++ fieldsSeg

/-- True when `pat` occurs as a contiguous byte run inside `l`. -/
def hasSubSeq (pat : List Nat) : List Nat → Bool
  | [] => pat.isEmpty
  | c :: rest => pat.isPrefixOf (c :: rest) || hasSubSeq pat rest

/-- Entry used by the C4 counterexample: Info level, message "hi", no logger
name, no caller, no fields. -/
def plainEntry : GoEntry :=
  { level := InfoLevel,
    time := { year := 2019, month := 1, day := 18, hour := 12, minute := 0,
              sec := 35, nano := 0, zoneOffset := 0 },
    caller := { defined := false, file := [], line := 0 },
    message := strBytes "hi",
    fields := .fnil, loggerName := [], ctx := .fnil }

/-- C4 counterexample: the claim states the separator ": " always precedes
the message, but when neither a logger name nor a caller segment is emitted
the encoder writes no ": " at all — with no flags and no name/caller the
whole line is "INFO hi\n", and the two-byte sequence ": " does not occur
anywhere in it. -/
theorem consoleEncode_separator_missing :
    consoleEncodeBytes id 0 plainEntry = strBytes "INFO hi\n"
      ∧ hasSubSeq [58, 32] (consoleEncodeBytes id 0 plainEntry) = false := by
  refine ⟨by decide, by decide⟩

/-- C4 (amended): the console encoder appends exactly the layout of
`specConsoleLine`: level token, optional timestamp per the derived time
flags, optional logger name and optional file:line caller (colon-joined when
both are present), then the separator ": " if and only if at least one of the
name or caller segments was emitted, then the message and a newline, followed
by the second line " -  {" fields "}\n" iff the context or call-site field
lists are non-empty (context fields first). -/
theorem consoleEncode_layout (utc : GoTime → GoTime) (flags : Nat) (e : GoEntry) :
    consoleEncodeBytes utc flags e = specConsoleLine utc flags e := by
  simp [consoleEncodeBytes, specConsoleLine]

/-- Sanity: the console encoder reproduces the repository's own
`TestCore_Write_console` expectation byte for byte (the level token modelled
as the uppercase name). -/
theorem consoleEncode_matches_repo_test :
    consoleEncodeBytes id (LstdFlags ||| Lmicroseconds ||| Lshortfile)
        { level := InfoLevel,
          time := { year := 2019, month := 1, day := 18, hour := 12, minute := 0,
                    sec := 35, nano := 9876, zoneOffset := 0 },
          caller := { defined := true,
                      file := strBytes "github.com/cnotch/xlog/core_test.go", line := 30 },
          message := strBytes "info message",
          fields := .fcons (strBytes "int") (.prim (.vInt 100))
            (.fcons (strBytes "str") (.prim (.vStr (strBytes "ok"))) .fnil),
          loggerName := [],
          ctx := .fcons (strBytes "instance") (.prim (.vInt 9000)) .fnil }
      = consoleStr InfoLevel
          ++ strBytes " 2019-01-18 12:00:35.000009 core_test.go:30: info message\n -  \x7b\"instance\":9000,\"int\":100,\"str\":\"ok\"\x7d\n" := by
  decide

/-! ## Cores (the core source concatenated in src/unnamed/part_002) -/

/-- State of an `ioCore`: the encoder and the sink writer are modelled as the
functions the core calls (the encoder returns the bytes it appends to the
pooled builder and its error; the writer returns the consumed count and its
error); `sync` is the flush hook `getSyncFunc` derives from the sink's
capabilities (none when the sink has no Sync/Flush method), and `enab` the
level enabler passed to `NewCore` (a spec-modelled `Level`, see below). -/
structure IOCoreData where
  enc : GoEntry → List Nat × Option GoErr
  w : List Nat → Nat × Option GoErr
  sync : Option (Unit → Option GoErr)
  enab : Int

/-- Embedding of `ioCore.Sync`: the hook when present, else nil. -/
def syncRun (d : IOCoreData) : Option GoErr :=
  match d.sync with
  | some s => s ()
  | none => none

/-- Embedding of `ioCore.Write` with two ghost observations: the returned
error, whether the sink write was attempted, and whether `Sync` was invoked.
The source encodes into a pooled builder, writes the builder's bytes only
when encoding succeeded, and calls `Sync` only when no error occurred so far
and the entry's level is at least Error. -/
def ioWriteFull (d : IOCoreData) (e : GoEntry) : Option GoErr × Bool × Bool :=
  match (d.enc e).2 with
  | some er => (some er, false, false)
  | none =>
    match (d.w (d.enc e).1).2 with
    | some er => (some er, true, false)
    | none =>
      if ErrorLevel ≤ e.level then (syncRun d, true, true)
      else (none, true, false)

/-- Entry at the Error level used by the C5 counterexample. -/
def errorEntry : GoEntry :=
  { plainEntry with level := ErrorLevel }

/-- Core data whose encoder always fails while the sink has a flush hook,
used by the C5 counterexample. -/
def failEncData : IOCoreData :=
  { enc := fun _ => ([], some (.tagE 1)),
    w := fun _ => (0, none),
    sync := some (fun _ => none),
    enab := DebugLevel }

/-- Core data whose sink write fails, used by the C5 witness. -/
def failWriteData : IOCoreData :=
  { enc := fun _ => ([65], none),
    w := fun _ => (0, some (.tagE 2)),
    sync := none,
    enab := DebugLevel }

/-- C5 counterexample: an Error-level entry whose encoding fails. The claim
says the flush hook is invoked whenever the level is at or above Error, and
that its error is reported even when encoding already failed; the code skips
both the write and the `Sync` call (third component false) and returns the
encode error alone, with no combining. -/
theorem ioWrite_no_flush_after_encode_error :
    ErrorLevel ≤ errorEntry.level
      ∧ ioWriteFull failEncData errorEntry = (some (.tagE 1), false, false) := by
  exact ⟨by decide, rfl⟩

/-- C5 (amended): `ioCore.Write` renders the entry; if encoding fails it
returns the encode error without writing or flushing; otherwise it writes and
if the write fails returns that error without flushing; otherwise it invokes
`Sync` exactly when the entry's level is at or above Error and returns the
flush result. The returned error is always the error of the first failing
step alone — no errors are combined. -/
theorem ioWrite_first_error (d : IOCoreData) (e : GoEntry) :
    ((d.enc e).2 ≠ none → ioWriteFull d e = ((d.enc e).2, false, false))
      ∧ ((d.enc e).2 = none → (d.w (d.enc e).1).2 ≠ none →
          ioWriteFull d e = ((d.w (d.enc e).1).2, true, false))
      ∧ ((d.enc e).2 = none → (d.w (d.enc e).1).2 = none →
          ioWriteFull d e
            = ((if ErrorLevel ≤ e.level then syncRun d else none), true,
                decide (ErrorLevel ≤ e.level))) := by
  refine ⟨fun h1 => ?_, fun h1 h2 => ?_, fun h1 h2 => ?_⟩
  · rcases henc : (d.enc e).2 with _ | er
    · exact absurd henc h1
    · simp [ioWriteFull, henc]
  · rcases hw : (d.w (d.enc e).1).2 with _ | er
    · exact absurd hw h2
    · simp [ioWriteFull, h1, hw]
  · by_cases hl : ErrorLevel ≤ e.level <;> simp [ioWriteFull, h1, h2, hl]

/-- C5 witness: a failing sink write surfaces as the single returned error
with no flush. -/
theorem ioWrite_first_error_witness :
    ioWriteFull failWriteData plainEntry = (some (.tagE 2), true, false) :=
  (ioWrite_first_error failWriteData plainEntry).2.1 rfl (by simp [failWriteData])

/-- Modelled from the spec: the `Level` enabler (level.go is not under src/).
The spec's data model states that a level outside the minimum/maximum bound
is never enabled; within the bound a level enabler enables every level at or
above itself. -/
def levelEnabledBy (l lvl : Int) : Bool :=
  decide (minLevel ≤ lvl) && decide (lvl ≤ maxLevel) && decide (l ≤ lvl)

mutual
/-- The `Core` values of the repository: the no-op core, an `ioCore` and a
`multiCore` with its child list and precomputed per-level table. -/
inductive Core : Type where
  | nop : Core
  | io : IOCoreData → Core
  | multi : Cores → List Bool → Core

/-- Ordered list of cores, as its own inductive so the recursions below are
structural. -/
inductive Cores : Type where
  | cnil : Cores
  | ccons : Core → Cores → Cores
end

/-- Embedding of the three `Enabled` implementations: `nopCore.Enabled` is
always false; `ioCore` delegates to its embedded enabler; `multiCore.Enabled`
returns false outside the legal level range and reads the precomputed table
at `lvl + 1` otherwise. -/
def Core.enabledB : Core → Int → Bool
  | .nop, _ => false
  | .io d, lvl => levelEnabledBy d.enab lvl
  | .multi _ tbl, lvl =>
    if lvl < minLevel ∨ lvl > maxLevel then false
    else tbl.getD (lvl + 1).toNat false

/-- Embedding of `NewCore`: packs the encoder, writer, derived flush hook and
enabler into an `ioCore`. -/
def NewCore (enc : GoEntry → List Nat × Option GoErr) (w : List Nat → Nat × Option GoErr)
    (sync : Option (Unit → Option GoErr)) (enab : Int) : Core :=
  Core.io { enc := enc, w := w, sync := sync, enab := enab }

/-- List append on `Cores`. -/
def coresAppend : Cores → Cores → Cores
  | .cnil, ys => ys
  | .ccons c r, ys => .ccons c (coresAppend r ys)

/-- True when some core of the list enables the level, the content of one
slot of the `levelsEnabled` table `NewTee` precomputes. -/
def coresAnyEnabled : Cores → Int → Bool
  | .cnil, _ => false
  | .ccons c r, lvl => Core.enabledB c lvl || coresAnyEnabled r lvl

/-- The `levelsEnabled` table of `NewTee`: `_maxLevel + 2` slots, slot `j`
true iff some child enables level `j - 1` (the loop covers the legal range
`_minLevel .. _maxLevel`, i.e. slots 0..5 exactly). -/
def mkLevelsTable (all : Cores) : List Bool :=
  (List.range (maxLevel + 2).toNat).map (fun j => coresAnyEnabled all ((j : Int) - 1))

/-- The flattening loop of `NewTee`: a `multiCore` argument contributes its
child list, any other core contributes itself. -/
def flattenCores : Cores → Cores
  | .cnil => .cnil
  | .ccons c rest =>
    match c with
    | .multi cs2 _ => coresAppend cs2 (flattenCores rest)
    | c2 => .ccons c2 (flattenCores rest)

/-- Embedding of `NewTee`: no cores give the no-op core, one core is
returned unchanged, otherwise the arguments are flattened and the per-level
table precomputed. -/
def NewTee : Cores → Core
  | .cnil => .nop
  | .ccons c .cnil => c
  | cs =>
    let all := flattenCores cs
    Core.multi all (mkLevelsTable all)

mutual
/-- Embedding of the `Write` implementations: `nopCore.Write` returns nil,
the `ioCore` write is `ioWriteFull`, and `multiCore.Write` writes to every
child, combining the non-nil errors. -/
def Core.writeE : Core → GoEntry → Option GoErr
  | .nop, _ => none
  | .io d, e => (ioWriteFull d e).1
  | .multi cs _, e => Cores.writeAll cs e none

/-- The `multiCore.Write` loop over the child list. -/
def Cores.writeAll : Cores → GoEntry → Option GoErr → Option GoErr
  | .cnil, _, acc => acc
  | .ccons c rest, e, acc =>
    Cores.writeAll rest e
      (match Core.writeE c e with
       | some er => combineErrors acc (some er)
       | none => acc)
end

mutual
/-- Embedding of the `Sync` implementations. -/
def Core.syncE : Core → Option GoErr
  | .nop => none
  | .io d => syncRun d
  | .multi cs _ => Cores.syncAll cs none

/-- The `multiCore.Sync` loop over the child list. -/
def Cores.syncAll : Cores → Option GoErr → Option GoErr
  | .cnil, acc => acc
  | .ccons c rest, acc =>
    Cores.syncAll rest
      (match Core.syncE c with
       | some er => combineErrors acc (some er)
       | none => acc)
end

/-- True for every core that is not a `multiCore`. -/
def Core.isMulti : Core → Bool
  | .multi _ _ => true
  | _ => false

/-- True when no core of the list is a `multiCore`. -/
def coresNoMulti : Cores → Bool
  | .cnil => true
  | .ccons c rest => !c.isMulti && coresNoMulti rest

/-- A core is flat when, if it is a `multiCore`, its child list contains no
`multiCore` (no nested fanout). -/
def Core.flatB : Core → Bool
  | .multi cs _ => coresNoMulti cs
  | _ => true

/-- True when every core of the list is flat. -/
def coresAllFlat : Cores → Bool
  | .cnil => true
  | .ccons c rest => c.flatB && coresAllFlat rest

theorem coresNoMulti_append : (a b : Cores) →
    coresNoMulti (coresAppend a b) = (coresNoMulti a && coresNoMulti b)
  | .cnil, b => by simp [coresAppend, coresNoMulti]
  | .ccons c r, b => by
    simp [coresAppend, coresNoMulti, coresNoMulti_append r b, Bool.and_assoc]

theorem flattenCores_noMulti : (cs : Cores) → coresAllFlat cs = true →
    coresNoMulti (flattenCores cs) = true
  | .cnil, _ => rfl
  | .ccons c rest, h => by
    have hc : c.flatB = true ∧ coresAllFlat rest = true := by
      simpa [coresAllFlat, Bool.and_eq_true] using h
    have ih := flattenCores_noMulti rest hc.2
    cases c with
    | nop => simp [flattenCores, coresNoMulti, Core.isMulti, ih]
    | io d => simp [flattenCores, coresNoMulti, Core.isMulti, ih]
    | multi cs2 tbl =>
      have h2 : coresNoMulti cs2 = true := by simpa [Core.flatB] using hc.1
      simp [flattenCores, coresNoMulti_append, h2, ih]

/-- C6: for every level strictly below the minimum level or strictly above
the maximum level, the no-op core, every `ioCore` built by `NewCore` and
every `multiCore` report the level as not enabled. -/
theorem cores_disabled_out_of_range (lvl : Int) (d : IOCoreData) (cs : Cores)
    (tbl : List Bool) (h : lvl < minLevel ∨ maxLevel < lvl) :
    Core.enabledB Core.nop lvl = false
      ∧ Core.enabledB (NewCore d.enc d.w d.sync d.enab) lvl = false
      ∧ Core.enabledB (Core.multi cs tbl) lvl = false := by
  refine ⟨rfl, ?_, ?_⟩
  · show levelEnabledBy d.enab lvl = false
    unfold levelEnabledBy
    rcases h with h | h
    · have h1 : ¬ (minLevel ≤ lvl) := by omega
      simp [h1]
    · have h1 : ¬ (lvl ≤ maxLevel) := by omega
      simp [h1]
  · show (if lvl < minLevel ∨ lvl > maxLevel then false
          else tbl.getD (lvl + 1).toNat false) = false
    rw [if_pos h]

/-- Sample core data used by witnesses: a trivial encoder and sink with no
flush hook, enabled from Debug. -/
def sampleCoreData : IOCoreData :=
  { enc := fun _ => ([], none),
    w := fun _ => (0, none),
    sync := none,
    enab := DebugLevel }

/-- C6 witness at the concrete out-of-range level 5 (one above Fatal). -/
theorem cores_disabled_out_of_range_witness :
    Core.enabledB Core.nop 5 = false
      ∧ Core.enabledB
          (NewCore sampleCoreData.enc sampleCoreData.w sampleCoreData.sync
            sampleCoreData.enab) 5 = false
      ∧ Core.enabledB (Core.multi Cores.cnil []) 5 = false :=
  cores_disabled_out_of_range 5 sampleCoreData Cores.cnil [] (by right; decide)

/-- C7: `NewTee` of no cores is the no-op core, whose `Write` and `Sync`
always return nil and whose `Enabled` is false at every level; `NewTee` of
exactly one core is that core unchanged; and when every argument is flat
(its children, if it is a fanout, contain no fanout — true of every core
`NewTee` itself builds), the resulting core's child list contains no
`multiCore`: nested fanouts are inlined at construction. -/
theorem newTee_spec (c : Core) (cs : Cores) (e : GoEntry) (lvl : Int)
    (h : coresAllFlat cs = true) :
    NewTee Cores.cnil = Core.nop
      ∧ Core.writeE Core.nop e = none
      ∧ Core.syncE Core.nop = none
      ∧ Core.enabledB Core.nop lvl = false
      ∧ NewTee (Cores.ccons c Cores.cnil) = c
      ∧ Core.flatB (NewTee cs) = true := by
  refine ⟨rfl, rfl, rfl, rfl, rfl, ?_⟩
  cases cs with
  | cnil => rfl
  | ccons c1 rest =>
    cases rest with
    | cnil =>
      have h1 : c1.flatB = true := by
        simpa [coresAllFlat, Bool.and_eq_true] using h
      simpa [NewTee] using h1
    | ccons c2 rest2 =>
      show Core.flatB
        (Core.multi (flattenCores (Cores.ccons c1 (Cores.ccons c2 rest2)))
          (mkLevelsTable (flattenCores (Cores.ccons c1 (Cores.ccons c2 rest2))))) = true
      simpa [Core.flatB] using
        flattenCores_noMulti (Cores.ccons c1 (Cores.ccons c2 rest2)) h

/-- C7 witness: two no-op cores fed to `NewTee` produce a fanout whose child
list contains no fanout. -/
theorem newTee_spec_witness :
    NewTee Cores.cnil = Core.nop
      ∧ Core.writeE Core.nop plainEntry = none
      ∧ Core.syncE Core.nop = none
      ∧ Core.enabledB Core.nop 0 = false
      ∧ NewTee (Cores.ccons Core.nop Cores.cnil) = Core.nop
      ∧ Core.flatB (NewTee (Cores.ccons Core.nop (Cores.ccons Core.nop Cores.cnil))) = true :=
  newTee_spec Core.nop (Cores.ccons Core.nop (Cores.ccons Core.nop Cores.cnil))
    plainEntry 0 (by decide)

/-! ## Multi writer (writer.go) -/

/-- One pass of the `multiWriter.Write` loop: a writer error is combined and
the pass moves on; otherwise a consumed count different from the request
length combines `io.ErrShortWrite`, and the running count keeps the maximum
consumed count. -/
def mwStep (p : List Nat) (acc : Nat × Option GoErr) (w : List Nat → Nat × Option GoErr) :
    Nat × Option GoErr :=
  match (w p).2 with
  | some er => (acc.1, combineErrors acc.2 (some er))
  | none =>
    (if (w p).1 > acc.1 then (w p).1 else acc.1,
     if (w p).1 ≠ p.length then combineErrors acc.2 (some .shortWrite) else acc.2)

/-- Embedding of `multiWriter.Write` (writer.go). -/
def multiWriterWrite (ws : List (List Nat → Nat × Option GoErr)) (p : List Nat) :
    Nat × Option GoErr :=
  ws.foldl (mwStep p) (0, none)

theorem errFlat1_multi (es : List GoErr) : errFlat1 (.multiE es) = es := rfl

theorem errToList_combine (a b : Option GoErr) :
    errToList (combineErrors a b) = errToList a ++ errToList b := by
  rcases a with _ | a <;> rcases b with _ | b <;>
    simp [combineErrors, errToList, errFlat1_multi]

theorem mwStep_preserves (p : List Nat) (acc : Nat × Option GoErr)
    (w : List Nat → Nat × Option GoErr)
    (h : GoErr.shortWrite ∈ errToList acc.2) :
    GoErr.shortWrite ∈ errToList (mwStep p acc w).2 := by
  unfold mwStep
  rcases hw : (w p).2 with _ | er
  · by_cases hn : (w p).1 ≠ p.length <;>
      simp [hw, hn, errToList_combine, h]
  · simp [hw, errToList_combine, h]

theorem mwFold_preserves (p : List Nat) :
    (ws : List (List Nat → Nat × Option GoErr)) → (acc : Nat × Option GoErr) →
    GoErr.shortWrite ∈ errToList acc.2 →
    GoErr.shortWrite ∈ errToList (ws.foldl (mwStep p) acc).2
  | [], _, h => h
  | w :: ws, acc, h =>
    mwFold_preserves p ws (mwStep p acc w) (mwStep_preserves p acc w h)

theorem mwFold_establishes (p : List Nat) :
    (ws : List (List Nat → Nat × Option GoErr)) → (acc : Nat × Option GoErr) →
    (∃ w ∈ ws, (w p).2 = none ∧ (w p).1 ≠ p.length) →
    GoErr.shortWrite ∈ errToList (ws.foldl (mwStep p) acc).2
  | [], _, h => absurd h (by simp)
  | w :: ws, acc, h => by
    rcases h with ⟨w2, hmem, hnone, hlen⟩
    rcases List.mem_cons.mp hmem with rfl | hmem2
    · refine mwFold_preserves p ws (mwStep p acc w2) ?_
      unfold mwStep
      rw [hnone]
      show GoErr.shortWrite ∈ errToList
        (if (w2 p).1 ≠ p.length then combineErrors acc.2 (some .shortWrite) else acc.2)
      rw [if_pos hlen, errToList_combine]
      exact List.mem_append_right _ (by simp [errToList, errFlat1])
    · exact mwFold_establishes p ws (mwStep p acc w) ⟨w2, hmem2, hnone, hlen⟩

/-- C9 (amended): `multiWriter.Write` reports `io.ErrShortWrite` (combined
into its aggregate error, hence a non-nil return) whenever some writer
consumes fewer bytes than supplied while returning a nil error. The
`ioCore.Write` half of the original claim is false: see the counterexample
theorem, the core ignores the consumed count entirely. -/
theorem multiWriter_reports_short_write (ws : List (List Nat → Nat × Option GoErr))
    (p : List Nat) (h : ∃ w ∈ ws, (w p).2 = none ∧ (w p).1 ≠ p.length) :
    GoErr.shortWrite ∈ errToList (multiWriterWrite ws p).2
      ∧ (multiWriterWrite ws p).2 ≠ none := by
  have hm : GoErr.shortWrite ∈ errToList (multiWriterWrite ws p).2 :=
    mwFold_establishes p ws (0, none) h
  refine ⟨hm, ?_⟩
  intro hn
  rw [hn] at hm
  simp [errToList] at hm

/-- Sink that consumes nothing and reports no error, used by the C9
counterexample and witness. -/
def silentShortSink : List Nat → Nat × Option GoErr :=
  fun _ => (0, none)

/-- Core data writing one byte to the silently short sink. -/
def shortSinkCoreData : IOCoreData :=
  { enc := fun _ => ([65], none),
    w := silentShortSink,
    sync := none,
    enab := DebugLevel }

/-- C9 counterexample: the claim says `ioCore.Write` returns an error
whenever the sink consumes fewer bytes than the rendered entry; here the
encoder renders one byte, the sink consumes zero with a nil error, and
`ioCore.Write` still returns nil — the core never inspects the consumed
count. -/
theorem ioWrite_ignores_short_write :
    (shortSinkCoreData.enc plainEntry).1.length = 1
      ∧ (shortSinkCoreData.w [65]).1 = 0
      ∧ (ioWriteFull shortSinkCoreData plainEntry).1 = none := by
  exact ⟨rfl, rfl, rfl⟩

/-- C9 witness: a single silently short writer makes `multiWriter.Write`
report `io.ErrShortWrite`. -/
theorem multiWriter_reports_short_write_witness :
    GoErr.shortWrite ∈ errToList (multiWriterWrite [silentShortSink] [65]).2
      ∧ (multiWriterWrite [silentShortSink] [65]).2 ≠ none :=
  multiWriter_reports_short_write [silentShortSink] [65]
    ⟨silentShortSink, by simp, rfl, by decide⟩

end Xlog
